import Mathlib

/-
Verification of the geographical kernel in nhe/geo/__init__.py.

The Python module computes over IEEE floats and delegates spherical geodesy
to an external pyproj.Geod object and trigonometry to the math library.
The embedding idealises numbers as rationals, keeps the repository's own
control flow and arithmetic exactly, and abstracts the external collaborators
(pyproj.Geod and math.sqrt/sin/cos/acos) as structures of rational functions
passed to each operation; theorems state the hypotheses they need about
those external functions at the values actually used.

Helper functions of nhe.geo._utils (clean_points, line_intersects_itself,
get_longitudinal_extent) are imported by the module but their source is not
part of the sources available here; they are modelled from the spec, as
marked in their doc comments.
-/

namespace NheGeo

/-- Tolerance used for latitude and longitude (1e-5 degrees). -/
def LAT_LON_TOLERANCE : ℚ := 1 / 100000

/-- Tolerance used for depth (1e-3 km). -/
def DEPTH_TOLERANCE : ℚ := 1 / 1000

/-- A geographical point: longitude, latitude (decimal degrees), depth (km). -/
structure Point where
  longitude : ℚ
  latitude : ℚ
  depth : ℚ
deriving DecidableEq

/-- `Point.__init__`: validates longitude in [-180, 180] and latitude in
[-90, 90], raising RuntimeError otherwise (modelled as `Except.error`). -/
def mkPoint (longitude latitude : ℚ) (depth : ℚ := 0) : Except String Point :=
  if longitude < -180 ∨ 180 < longitude then
    Except.error "Longitude outside range!"
  else if latitude < -90 ∨ 90 < latitude then
    Except.error "Latitude outside range!"
  else
    Except.ok ⟨longitude, latitude, depth⟩

/-- Whether an `Except` value is a success. -/
def exceptOk : Except String α → Bool
  | Except.ok _ => true
  | Except.error _ => false

/-- `Point.__eq__`: numpy.allclose on [longitude, latitude] with
atol = LAT_LON_TOLERANCE and rtol = 0 (elementwise absolute comparison),
then absolute depth comparison against DEPTH_TOLERANCE. -/
def pointEq (p q : Point) : Bool :=
  (decide (|p.longitude - q.longitude| ≤ LAT_LON_TOLERANCE) &&
   decide (|p.latitude - q.latitude| ≤ LAT_LON_TOLERANCE)) &&
  decide (|p.depth - q.depth| ≤ DEPTH_TOLERANCE)

/-- `Point.__ne__`: `not self.__eq__(other)`. -/
def pointNe (p q : Point) : Bool :=
  !(pointEq p q)

/-- Abstraction of the external pyproj.Geod object (GEOD).
`fwd lon lat az dist_m` returns the destination (lon, lat);
`inv lon1 lat1 lon2 lat2` returns (forward azimuth, distance in meters);
`npts lon1 lat1 lon2 lat2 n` returns n intermediate (lon, lat) points. -/
structure Geod where
  fwd : ℚ → ℚ → ℚ → ℚ → ℚ × ℚ
  inv : ℚ → ℚ → ℚ → ℚ → ℚ × ℚ
  npts : ℚ → ℚ → ℚ → ℚ → ℕ → List (ℚ × ℚ)

/-- Abstraction of the external math library functions used by the module. -/
structure RMath where
  sqrt : ℚ → ℚ
  sin : ℚ → ℚ
  cos : ℚ → ℚ
  acos : ℚ → ℚ

/-- `Point.point_at`: forward geodetic step (km converted to meters by the
1e3 factor in the source) plus vertical increment on depth. -/
def Point.point_at (G : Geod) (p : Point) (horizontal_distance vertical_increment azimuth : ℚ) :
    Point :=
  let r := G.fwd p.longitude p.latitude azimuth (horizontal_distance * 1000)
  ⟨r.1, r.2, p.depth + vertical_increment⟩

/-- `Point.azimuth`: forward azimuth from GEOD.inv, normalised into [0, 360)
by adding 360 to negative raw azimuths. -/
def Point.azimuth (G : Geod) (p q : Point) : ℚ :=
  let forward_azimuth := (G.inv p.longitude p.latitude q.longitude q.latitude).1
  if forward_azimuth < 0 then 360 + forward_azimuth else forward_azimuth

/-- `Point.horizontal_distance`: great-circle distance from GEOD.inv,
converted from meters to km by the 1e-3 factor in the source. -/
def Point.horizontal_distance (G : Geod) (p q : Point) : ℚ :=
  (G.inv p.longitude p.latitude q.longitude q.latitude).2 * (1 / 1000)

/-- `Point.distance`: Pythagorean combination of the horizontal great-circle
distance and the depth difference. -/
def Point.distance (G : Geod) (M : RMath) (p q : Point) : ℚ :=
  let vertical_distance := q.depth - p.depth
  let horizontal_distance := Point.horizontal_distance G p q
  M.sqrt (horizontal_distance ^ 2 + vertical_distance ^ 2)

/-- Python 2's round: half away from zero. -/
def roundHalfAway (q : ℚ) : ℤ :=
  if 0 ≤ q then ⌊q + 1 / 2⌋ else -⌊-q + 1 / 2⌋

/-- The accumulation loop of `Point.equally_spaced_points`: on each iteration
the horizontal and vertical increments grow by one step and a new point is
produced by `point_at`. -/
def espLoop (G : Geod) (self : Point) (azimuth hstep vstep : ℚ) :
    ℕ → ℚ → ℚ → List Point
  | 0, _, _ => []
  | n + 1, h, v =>
    let h' := h + hstep
    let v' := v + vstep
    Point.point_at G self h' v' azimuth :: espLoop G self azimuth hstep vstep n h' v'

/-- `Point.equally_spaced_points`: if the destination equals the origin
(tolerance equality) return [self]; otherwise compute total distance,
horizontal distance, azimuth and bearing angle, then produce
`int(round(total/spacing) + 1)` points by accumulating increments. -/
def Point.equally_spaced_points (G : Geod) (M : RMath) (self point : Point)
    (distance : ℚ) : List Point :=
  if pointEq self point then [self]
  else
    let total_distance := Point.distance G M self point
    let horizontal_distance := Point.horizontal_distance G self point
    let azimuth := Point.azimuth G self point
    let bearing_angle := M.acos (horizontal_distance / total_distance)
    let vertical_increment_step :=
      if point.depth < self.depth then -(distance * M.sin bearing_angle)
      else distance * M.sin bearing_angle
    let horizontal_increment_step := distance * M.cos bearing_angle
    let locations : ℤ := roundHalfAway (total_distance / distance) + 1
    self :: espLoop G self azimuth horizontal_increment_step vertical_increment_step
      (locations - 1).toNat 0 0

/-- The guard of `Point.equally_spaced_points` divides `horizontal_distance`
by `total_distance`; in Python a zero total distance on that line raises
ZeroDivisionError.  This predicate records that the division is reached
(the tolerance-equality early return was not taken) with a zero denominator. -/
def espDividesByZero (G : Geod) (M : RMath) (self point : Point) : Prop :=
  pointEq self point = false ∧ Point.distance G M self point = 0

/-- Exact rational square root used to instantiate the abstract `RMath.sqrt`
in witnesses: on a perfect rational square it returns the nonnegative root. -/
def ratSqrt (q : ℚ) : ℚ :=
  if q ≤ 0 then 0 else (Nat.sqrt q.num.toNat : ℚ) / (Nat.sqrt q.den : ℚ)

/-- Concrete instantiation of the math library for witnesses: `acos` is the
identity on the bearing cosine, `cos` its left inverse, and `sin` realises
the identity sin(acos x) = sqrt(1 - x^2). -/
def mathToy : RMath :=
  { sqrt := ratSqrt
    sin := fun y => ratSqrt (1 - y ^ 2)
    cos := fun y => y
    acos := fun y => y }

/-- Auxiliary recursion for `clean_points`: `last` is the last kept point. -/
def cleanAux (last : Point) : List Point → List Point
  | [] => []
  | q :: rest => if pointEq last q then cleanAux last rest else q :: cleanAux q rest

/-- Modelled from the spec: `nhe.geo._utils.clean_points` removes adjacent
duplicates from the sequence, preserving order: a point is dropped when it is
tolerance-equal to the last point kept. -/
def clean_points : List Point → List Point
  | [] => []
  | p :: rest => p :: cleanAux p rest

/-- Cross-product orientation of three planar points. -/
def orient (a b c : ℚ × ℚ) : ℚ :=
  (b.1 - a.1) * (c.2 - a.2) - (b.2 - a.2) * (c.1 - a.1)

/-- Whether a point `c`, assumed collinear with segment `a`-`b`, lies within
the segment's bounding box. -/
def onSegment (a b c : ℚ × ℚ) : Bool :=
  decide (min a.1 b.1 ≤ c.1 ∧ c.1 ≤ max a.1 b.1 ∧
          min a.2 b.2 ≤ c.2 ∧ c.2 ≤ max a.2 b.2)

/-- Standard planar segment-intersection test between segments `a`-`b` and
`c`-`d` via orientation signs, with collinear overlap handled by bounding-box
containment. -/
def segIntersect (a b c d : ℚ × ℚ) : Bool :=
  let o1 := orient a b c
  let o2 := orient a b d
  let o3 := orient c d a
  let o4 := orient c d b
  (decide (o1 * o2 < 0) && decide (o3 * o4 < 0)) ||
  (decide (o1 = 0) && onSegment a b c) ||
  (decide (o2 = 0) && onSegment a b d) ||
  (decide (o3 = 0) && onSegment c d a) ||
  (decide (o4 = 0) && onSegment c d b)

/-- The list of planar segments of a vertex chain: consecutive pairs, plus
the closing segment from the last vertex back to the first for closed shapes. -/
def chainSegments (pts : List (ℚ × ℚ)) (closed_shape : Bool) : List ((ℚ × ℚ) × (ℚ × ℚ)) :=
  pts.zip pts.tail ++
    (if closed_shape then
      match pts.getLast?, pts.head? with
      | some l, some h => [(l, h)]
      | _, _ => []
    else [])

/-- Whether any two non-adjacent segments intersect; for closed shapes the
first and last segments are adjacent through the shared starting vertex. -/
def anyNonAdjacentIntersect (segs : List ((ℚ × ℚ) × (ℚ × ℚ))) (closed_shape : Bool) : Bool :=
  let m := segs.length
  (List.range m).any fun i =>
    (List.range m).any fun j =>
      decide (i + 2 ≤ j) && !(closed_shape && decide (i = 0) && decide (j = m - 1)) &&
        (match segs.get? i, segs.get? j with
         | some a, some b => segIntersect a.1 a.2 b.1 b.2
         | _, _ => false)

/-- Modelled from the spec: `nhe.geo._utils.line_intersects_itself` projects
the vertices to the plane through a local projection (abstracted as `proj`)
and tests every pair of non-adjacent segments for planar intersection; for
`closed_shape` the closing segment from last to first vertex is included.
Depth is ignored entirely. -/
def line_intersects_itself (proj : ℚ → ℚ → ℚ × ℚ) (lons lats : List ℚ)
    (closed_shape : Bool) : Bool :=
  let pts := (lons.zip lats).map fun lb => proj lb.1 lb.2
  anyNonAdjacentIntersect (chainSegments pts closed_shape) closed_shape

/-- A geographical line: a sequence of points. -/
structure Line where
  points : List Point
deriving DecidableEq

/-- `Line.__init__`: clean adjacent duplicates, require at least one point,
and reject a self-intersecting 2D (lon/lat) projection. -/
def Line.init (proj : ℚ → ℚ → ℚ × ℚ) (points : List Point) : Except String Line :=
  let pts := clean_points points
  if pts.length < 1 then
    Except.error "One point needed to create a line!"
  else
    let lats := pts.map Point.latitude
    let lons := pts.map Point.longitude
    if line_intersects_itself proj lons lats false then
      Except.error "Line intersects itself!"
    else
      Except.ok ⟨pts⟩

/-- A polygon: vertex longitude and latitude arrays and the vertex count. -/
structure Polygon where
  lons : List ℚ
  lats : List ℚ
  num_points : ℕ
deriving DecidableEq

/-- `Polygon.__init__`: clean adjacent duplicates, require at least 3 unique
vertices, store coordinate arrays and count, and reject a perimeter (with
closing edge) that self-intersects in planar projection. -/
def Polygon.init (proj : ℚ → ℚ → ℚ × ℚ) (points : List Point) : Except String Polygon :=
  let pts := clean_points points
  if ¬ 3 ≤ pts.length then
    Except.error "polygon must have at least 3 unique vertices"
  else
    let lons := pts.map Point.longitude
    let lats := pts.map Point.latitude
    if line_intersects_itself proj lons lats true then
      Except.error "polygon perimeter intersects itself"
    else
      Except.ok ⟨lons, lats, pts.length⟩

/-- `Polygon.LONGITUDINAL_DISCRETIZATION`: angular unit (1 degree) for
resampling longitudinally-extended edges. -/
def LONGITUDINAL_DISCRETIZATION : ℚ := 1

/-- Modelled from the spec (Glossary): `nhe.geo._utils.get_longitudinal_extent`
is the signed angular distance from `lon1` eastward to `lon2`, normalised
into (-180, 180] to measure spans crossing the antimeridian. -/
def get_longitudinal_extent (lon1 lon2 : ℚ) : ℚ :=
  let extent := lon2 - lon1
  if 180 < extent then extent - 360
  else if extent ≤ -180 then extent + 360
  else extent

/-- The clamping applied to longitudes returned by GEOD.npts in
`Polygon._get_resampled_coordinates`, bringing slightly out-of-range values
back into range. -/
def clampLon (lon : ℚ) : ℚ :=
  if lon ≤ -180 then lon + 360
  else if 180 < lon then lon - 360
  else lon

/-- The intermediate points inserted for edge `i` of the polygon in
`Polygon._get_resampled_coordinates`: when `int(extent / unit) - 1` is
positive, that many GEOD.npts points with clamped longitudes. -/
def edgeInserts (G : Geod) (P : Polygon) (i : ℕ) : List (ℚ × ℚ) :=
  let nxt := (i + 1) % P.num_points
  let lon1 := P.lons.getD i 0
  let lat1 := P.lats.getD i 0
  let lon2 := P.lons.getD nxt 0
  let lat2 := P.lats.getD nxt 0
  let lon_extent := |get_longitudinal_extent lon1 lon2|
  let num_points : ℤ := ⌊lon_extent / LONGITUDINAL_DISCRETIZATION⌋ - 1
  if 0 < num_points then
    (G.npts lon1 lat1 lon2 lat2 num_points.toNat).map fun q => (clampLon q.1, q.2)
  else []

/-- One iteration of the edge loop of `Polygon._get_resampled_coordinates`:
the inserted intermediate points followed by the edge's endpoint, which is
appended unconditionally. -/
def resampleEdge (G : Geod) (P : Polygon) (i : ℕ) : List (ℚ × ℚ) :=
  let nxt := (i + 1) % P.num_points
  edgeInserts G P i ++ [(P.lons.getD nxt 0, P.lats.getD nxt 0)]

/-- `Polygon._get_resampled_coordinates` as a single list of (lon, lat)
pairs: the first vertex followed by the per-edge contributions in order;
the final edge wraps to the first vertex, which therefore repeats at the end. -/
def Polygon.resampledPoints (G : Geod) (P : Polygon) : List (ℚ × ℚ) :=
  (P.lons.getD 0 0, P.lats.getD 0 0) ::
    ((List.range P.num_points).map (resampleEdge G P)).flatten

/-- `Polygon._get_resampled_coordinates`: the pair of longitude and latitude
arrays of the resampled vertices. -/
def Polygon.get_resampled_coordinates (G : Geod) (P : Polygon) : List ℚ × List ℚ :=
  ((Polygon.resampledPoints G P).map Prod.fst, (Polygon.resampledPoints G P).map Prod.snd)

/-- Toy geodesy for witnesses: all activity happens along the lon = 0
meridian, parametrised linearly with one degree of latitude per km (a
uniformly scaled meridian, on which pyproj's forward/inverse problems are
linear in latitude). -/
def geodLine : Geod :=
  { fwd := fun lon lat _az dist_m => (lon, lat + dist_m / 1000)
    inv := fun _lon1 lat1 _lon2 lat2 => (0, (lat2 - lat1) * 1000)
    npts := fun _ _ _ _ n => List.replicate n (0, 0) }

/-- Toy geodesy reproducing pyproj's behaviour on coincident physical
locations written with different coordinates (longitude -180 versus 180, or
two points at a pole): the inverse problem returns azimuth 0 and distance 0,
and the forward problem with distance 0 returns the starting point. -/
def geodSeam : Geod :=
  { fwd := fun lon lat _ _ => (lon, lat)
    inv := fun _ _ _ _ => (0, 0)
    npts := fun _ _ _ _ _ => [] }

/-- Identity planar projection for witnesses: suitable for regions away from
the antimeridian, where longitude/latitude already are planar coordinates. -/
def projIdent : ℚ → ℚ → ℚ × ℚ := fun lon lat => (lon, lat)

/-- Planar projection for witnesses on antimeridian-crossing regions: shifts
negative longitudes by 360 so the region becomes contiguous, as a local
stereographic projection centred on the region would. -/
def projShift : ℚ → ℚ → ℚ × ℚ := fun lon lat => (if lon < 0 then lon + 360 else lon, lat)

/-- The antimeridian test polygon vertices from the spec. -/
def amPoints : List Point :=
  [⟨177, 40, 0⟩, ⟨179, 40, 0⟩, ⟨-179, 40, 0⟩, ⟨-177, 40, 0⟩,
   ⟨-177, 43, 0⟩, ⟨-179, 43, 0⟩, ⟨179, 43, 0⟩, ⟨177, 43, 0⟩]

/-- A valid polygon with a vertex at longitude exactly -180. -/
def seamVertexPoints : List Point :=
  [⟨-180, 0, 0⟩, ⟨-179, 0, 0⟩, ⟨-179, 1, 0⟩]

/-- The polygon stored by a successful construction from `amPoints`. -/
def amPoly : Polygon :=
  ⟨[177, 179, -179, -177, -177, -179, 179, 177],
   [40, 40, 40, 40, 43, 43, 43, 43], 8⟩

/-- The polygon stored by a successful construction from `seamVertexPoints`. -/
def seamPoly : Polygon :=
  ⟨[-180, -179, -179], [0, 0, 1], 3⟩

theorem ratSqrt_nonneg (x : ℚ) : 0 ≤ ratSqrt x := by
  unfold ratSqrt
  split
  · exact le_refl 0
  · positivity

theorem ratSqrt_sq (x : ℚ) (hx : 0 ≤ x) : ratSqrt (x ^ 2) = x := by
  rcases eq_or_lt_of_le hx with h | hpos
  · rw [← h]
    unfold ratSqrt
    norm_num
  · unfold ratSqrt
    rw [if_neg (not_le.mpr (by positivity))]
    have hnum : (x ^ 2).num = x.num * x.num := by
      rw [pow_two, Rat.mul_self_num]
    have hden : (x ^ 2).den = x.den * x.den := by
      rw [pow_two, Rat.mul_self_den]
    have hnn : 0 < x.num := Rat.num_pos.mpr hpos
    obtain ⟨n, hn⟩ : ∃ n : ℕ, x.num = (n : ℤ) :=
      ⟨x.num.toNat, (Int.toNat_of_nonneg hnn.le).symm⟩
    rw [hnum, hden, hn]
    have h1 : ((n : ℤ) * n).toNat = n * n := by
      rw [← Int.natCast_mul, Int.toNat_natCast]
    rw [h1, Nat.sqrt_eq, Nat.sqrt_eq]
    conv_rhs => rw [← Rat.num_div_den x, hn]
    push_cast
    ring

theorem pointEq_true_iff (p q : Point) :
    pointEq p q = true ↔
      (|p.longitude - q.longitude| ≤ LAT_LON_TOLERANCE ∧
       |p.latitude - q.latitude| ≤ LAT_LON_TOLERANCE ∧
       |p.depth - q.depth| ≤ DEPTH_TOLERANCE) := by
  unfold pointEq
  simp [and_assoc]

theorem pointEq_false_iff (p q : Point) :
    pointEq p q = false ↔
      ¬ (|p.longitude - q.longitude| ≤ LAT_LON_TOLERANCE ∧
         |p.latitude - q.latitude| ≤ LAT_LON_TOLERANCE ∧
         |p.depth - q.depth| ≤ DEPTH_TOLERANCE) := by
  rw [Bool.eq_false_iff, Ne, pointEq_true_iff]

theorem pointEq_refl (p : Point) : pointEq p p = true := by
  rw [pointEq_true_iff]
  norm_num [LAT_LON_TOLERANCE, DEPTH_TOLERANCE]

example : pointEq ⟨1 / 100000, 1 / 100000, 0⟩ ⟨0, 0, 0⟩ = true := by
  rw [pointEq_true_iff]
  norm_num [LAT_LON_TOLERANCE, DEPTH_TOLERANCE, abs_le]

example : pointEq ⟨1 / 10000, 1 / 10000, 0⟩ ⟨0, 0, 0⟩ = false := by
  rw [pointEq_false_iff]
  norm_num [LAT_LON_TOLERANCE, abs_le]

example : exceptOk (mkPoint (-18001 / 100) 0 0) = false := by
  norm_num [mkPoint, exceptOk]

/-- Claim C4: two points are equal exactly when each coordinate difference is
within its tolerance: |Δlon| ≤ 1e-5 and |Δlat| ≤ 1e-5 (independent
per-coordinate comparisons) and |Δdepth| ≤ 1e-3; inequality is the exact
negation, so any difference strictly above its tolerance makes the points
unequal. -/
theorem point_eq_iff_within_tolerance (p q : Point) :
    (pointEq p q = true ↔
      (|p.longitude - q.longitude| ≤ LAT_LON_TOLERANCE ∧
       |p.latitude - q.latitude| ≤ LAT_LON_TOLERANCE ∧
       |p.depth - q.depth| ≤ DEPTH_TOLERANCE)) ∧
    (pointNe p q = !(pointEq p q)) ∧
    ((LAT_LON_TOLERANCE < |p.longitude - q.longitude| ∨
      LAT_LON_TOLERANCE < |p.latitude - q.latitude| ∨
      DEPTH_TOLERANCE < |p.depth - q.depth|) → pointNe p q = true) := by
  refine ⟨pointEq_true_iff p q, rfl, ?_⟩
  intro h
  unfold pointNe
  rw [Bool.not_eq_true', pointEq_false_iff]
  rintro ⟨h1, h2, h3⟩
  rcases h with h | h | h <;> linarith

/-- Witness for C4 at concrete points: equality at exactly the tolerances. -/
theorem point_eq_iff_within_tolerance_witness :
    pointEq ⟨1 / 100000, 0, 1 / 1000⟩ ⟨0, 0, 0⟩ = true :=
  (point_eq_iff_within_tolerance ⟨1 / 100000, 0, 1 / 1000⟩ ⟨0, 0, 0⟩).1.mpr
    (by norm_num [LAT_LON_TOLERANCE, DEPTH_TOLERANCE, abs_le])

/-- Claim C8: Point construction succeeds exactly when longitude lies in
[-180, 180] and latitude in [-90, 90] (boundaries accepted, depth
unrestricted); on success the point carries exactly the given coordinates,
and otherwise the call yields only an error. -/
theorem point_init_ok_iff_in_range (lon lat depth : ℚ) :
    (exceptOk (mkPoint lon lat depth) = true ↔
      (-180 ≤ lon ∧ lon ≤ 180 ∧ -90 ≤ lat ∧ lat ≤ 90)) ∧
    (∀ p, mkPoint lon lat depth = Except.ok p →
      p.longitude = lon ∧ p.latitude = lat ∧ p.depth = depth) := by
  unfold mkPoint exceptOk
  split_ifs with h1 h2
  · simp only [Bool.false_eq_true, false_iff]
    constructor
    · rintro ⟨ha, hb, -⟩
      rcases h1 with h | h <;> linarith
    · intro p hp
      exact absurd hp (by simp)
  · simp only [Bool.false_eq_true, false_iff]
    constructor
    · rintro ⟨-, -, hc, hd⟩
      rcases h2 with h | h <;> linarith
    · intro p hp
      exact absurd hp (by simp)
  · push_neg at h1 h2
    constructor
    · simp only [true_iff]
      exact ⟨h1.1, h1.2, h2.1, h2.2⟩
    · intro p hp
      cases hp
      exact ⟨rfl, rfl, rfl⟩

/-- Witness for C8: the boundary point (-180, 90) with negative depth is
accepted. -/
theorem point_init_ok_iff_in_range_witness :
    exceptOk (mkPoint (-180) 90 (-7)) = true :=
  (point_init_ok_iff_in_range (-180) 90 (-7)).1.mpr (by norm_num)

theorem mathToy_sqrt_eval (x y r : ℚ) (hr : 0 ≤ r) (h : x ^ 2 + y ^ 2 = r ^ 2) :
    mathToy.sqrt (x ^ 2 + y ^ 2) = r := by
  show ratSqrt (x ^ 2 + y ^ 2) = r
  rw [h, ratSqrt_sq r hr]

/-- Claim C9: `Point.distance` is exactly the Pythagorean combination of the
great-circle horizontal distance (itself the inverse-problem distance
converted from meters to km) and the depth difference. -/
theorem distance_is_pythagorean (G : Geod) (M : RMath) (p q : Point) :
    Point.distance G M p q =
      M.sqrt (Point.horizontal_distance G p q ^ 2 + (q.depth - p.depth) ^ 2) ∧
    Point.horizontal_distance G p q =
      (G.inv p.longitude p.latitude q.longitude q.latitude).2 * (1 / 1000) :=
  ⟨rfl, rfl⟩

/-- Witness for C9: on the toy meridian geodesy, the distance between two
points 3 km apart horizontally and 4 km apart in depth is 5 km. -/
theorem distance_is_pythagorean_witness :
    Point.distance geodLine mathToy ⟨0, 0, 0⟩ ⟨0, 3, 4⟩ = 5 := by
  rw [(distance_is_pythagorean geodLine mathToy ⟨0, 0, 0⟩ ⟨0, 3, 4⟩).1]
  have h3 : Point.horizontal_distance geodLine ⟨0, 0, 0⟩ ⟨0, 3, 4⟩ = 3 := by
    norm_num [Point.horizontal_distance, geodLine]
  rw [h3]
  exact mathToy_sqrt_eval 3 ((4 : ℚ) - 0) 5 (by norm_num) (by norm_num)

theorem espLoop_length (G : Geod) (self : Point) (az hs vs : ℚ) :
    ∀ (n : ℕ) (h v : ℚ), (espLoop G self az hs vs n h v).length = n := by
  intro n
  induction n with
  | zero => intro h v; rfl
  | succ m ih => intro h v; simp [espLoop, ih]

theorem roundHalfAway_nonneg (q : ℚ) (hq : 0 ≤ q) : 0 ≤ roundHalfAway q := by
  unfold roundHalfAway
  rw [if_pos hq]
  have : (0 : ℚ) ≤ q + 1 / 2 := by linarith
  exact_mod_cast Int.floor_nonneg.mpr this

/-- Claim C1: `equally_spaced_points` returns `[self]` when the destination
is tolerance-equal to the origin, and otherwise exactly
`round(total_distance / spacing) + 1` points, with Python 2's round
(half away from zero, embodied by `roundHalfAway`), not floor or ceiling. -/
theorem equally_spaced_points_count (G : Geod) (M : RMath) (self point : Point)
    (spacing : ℚ) (hsp : 0 < spacing) (hsqrt : ∀ x, 0 ≤ x → 0 ≤ M.sqrt x) :
    (pointEq self point = true →
      Point.equally_spaced_points G M self point spacing = [self]) ∧
    (pointEq self point = false →
      ((Point.equally_spaced_points G M self point spacing).length : ℤ) =
        roundHalfAway (Point.distance G M self point / spacing) + 1) := by
  constructor
  · intro h
    unfold Point.equally_spaced_points
    rw [h]
    simp
  · intro h
    unfold Point.equally_spaced_points
    rw [h]
    simp only [Bool.false_eq_true, if_false, List.length_cons, espLoop_length,
      add_sub_cancel_right]
    have htd : 0 ≤ Point.distance G M self point := by
      unfold Point.distance
      exact hsqrt _ (by positivity)
    have hr : 0 ≤ roundHalfAway (Point.distance G M self point / spacing) :=
      roundHalfAway_nonneg _ (div_nonneg htd hsp.le)
    push_cast [Int.toNat_of_nonneg hr]
    ring

/-- Witness for C1: on the toy meridian geodesy, 10 km at spacing 3 km gives
round(10/3) + 1 = 4 points. -/
theorem equally_spaced_points_count_witness :
    ((Point.equally_spaced_points geodLine mathToy ⟨0, 0, 0⟩ ⟨0, 10, 0⟩ 3).length : ℤ) = 4 := by
  have hne : pointEq ⟨0, 0, 0⟩ ⟨0, 10, 0⟩ = false := by
    rw [pointEq_false_iff]
    norm_num [LAT_LON_TOLERANCE, abs_le]
  have hc := (equally_spaced_points_count geodLine mathToy ⟨0, 0, 0⟩ ⟨0, 10, 0⟩ 3
    (by norm_num) (fun x _ => ratSqrt_nonneg x)).2 hne
  have hh : Point.horizontal_distance geodLine ⟨0, 0, 0⟩ ⟨0, 10, 0⟩ = 10 := by
    norm_num [Point.horizontal_distance, geodLine]
  have hd : Point.distance geodLine mathToy ⟨0, 0, 0⟩ ⟨0, 10, 0⟩ = 10 := by
    unfold Point.distance
    rw [hh]
    exact mathToy_sqrt_eval 10 ((0 : ℚ) - 0) 10 (by norm_num) (by norm_num)
  rw [hc, hd]
  have : roundHalfAway (10 / 3) = 3 := by
    unfold roundHalfAway
    rw [if_pos (by norm_num)]
    rw [show (10 : ℚ) / 3 + 1 / 2 = 23 / 6 by norm_num]
    rw [Int.floor_eq_iff]; norm_num
  rw [this]
  norm_num

theorem ratSqrt_one_sub_zero_sq : ratSqrt (1 - ((0 : ℚ) / 10) ^ 2) = 1 := by
  rw [show (1 - ((0 : ℚ) / 10) ^ 2) = 1 ^ 2 by norm_num]
  exact ratSqrt_sq 1 (by norm_num)

theorem roundHalfAway_ten_thirds : roundHalfAway ((10 : ℚ) / 3) = 3 := by
  unfold roundHalfAway
  rw [if_pos (by norm_num)]
  rw [show (10 : ℚ) / 3 + 1 / 2 = 23 / 6 by norm_num]
  rw [Int.floor_eq_iff]
  norm_num

/-- The fully evaluated point list for a purely vertical pair of points on
the toy geodesy: origin at depth 0, destination at depth 10, spacing 3. -/
theorem esp_vertical_eval :
    Point.equally_spaced_points geodLine mathToy ⟨0, 0, 0⟩ ⟨0, 0, 10⟩ 3 =
      [⟨0, 0, 0⟩, ⟨0, 0, 3⟩, ⟨0, 0, 6⟩, ⟨0, 0, 9⟩] := by
  have h1 : pointEq ⟨0, 0, 0⟩ ⟨0, 0, 10⟩ = false := by
    rw [pointEq_false_iff]
    norm_num [DEPTH_TOLERANCE, abs_le]
  have hB : Point.horizontal_distance geodLine ⟨0, 0, 0⟩ ⟨0, 0, 10⟩ = 0 := by
    norm_num [Point.horizontal_distance, geodLine]
  have hA : Point.distance geodLine mathToy ⟨0, 0, 0⟩ ⟨0, 0, 10⟩ = 10 := by
    unfold Point.distance
    rw [hB]
    exact mathToy_sqrt_eval 0 ((10 : ℚ) - 0) 10 (by norm_num) (by norm_num)
  have hAz : Point.azimuth geodLine ⟨0, 0, 0⟩ ⟨0, 0, 10⟩ = 0 := by
    norm_num [Point.azimuth, geodLine]
  unfold Point.equally_spaced_points
  rw [h1]
  simp only [Bool.false_eq_true, if_false, hA, hB, hAz]
  show _ :: espLoop _ _ _ _ _ _ _ _ = _
  rw [show ((0 : ℚ) / 10) = 0 by norm_num]
  show _ :: espLoop _ _ _ (3 * mathToy.cos (mathToy.acos 0))
    (if (10 : ℚ) < 0 then _ else 3 * mathToy.sin (mathToy.acos 0)) _ _ _ = _
  rw [if_neg (by norm_num)]
  show _ :: espLoop _ _ _ (3 * 0) (3 * ratSqrt (1 - (0 : ℚ) ^ 2)) _ _ _ = _
  rw [show (1 - (0 : ℚ) ^ 2) = 1 ^ 2 by norm_num, ratSqrt_sq 1 (by norm_num)]
  rw [roundHalfAway_ten_thirds]
  show _ :: espLoop _ _ _ _ _ ((3 : ℤ) + 1 - 1).toNat _ _ = _
  rw [show ((3 : ℤ) + 1 - 1).toNat = 3 by rfl]
  simp only [espLoop, Point.point_at, geodLine]
  norm_num

/-- Claim C2 (amended): the first element of `equally_spaced_points` is
always the origin point itself, and in the degenerate case where the
destination is tolerance-equal to the origin the result is the
single-element list `[self]` (whose last element is the origin, which is
tolerance-equal to the destination); in general the last element is the
final accumulated step point and need not equal the destination. -/
theorem equally_spaced_points_first_is_self (G : Geod) (M : RMath)
    (self point : Point) (spacing : ℚ) :
    (Point.equally_spaced_points G M self point spacing).head? = some self ∧
    (pointEq self point = true →
      Point.equally_spaced_points G M self point spacing = [self]) := by
  constructor
  · unfold Point.equally_spaced_points
    split <;> rfl
  · intro h
    unfold Point.equally_spaced_points
    rw [h]
    simp

/-- Witness for C2 at a concrete degenerate input: a point paired with
itself yields the single-element list. -/
theorem equally_spaced_points_first_is_self_witness :
    Point.equally_spaced_points geodLine mathToy ⟨3, 4, 5⟩ ⟨3, 4, 5⟩ 1 = [⟨3, 4, 5⟩] :=
  (equally_spaced_points_first_is_self geodLine mathToy ⟨3, 4, 5⟩ ⟨3, 4, 5⟩ 1).2
    (pointEq_refl ⟨3, 4, 5⟩)

/-- Counterexample to C2 as stated: for two valid points 10 km apart in
depth with spacing 3 km, the computation is reached (the points are not
tolerance-equal), yet the last produced point sits at depth 9 km, one full
kilometre short of the destination, and is therefore not tolerance-equal to
it. -/
theorem equally_spaced_points_last_ne_destination :
    pointEq ⟨0, 0, 0⟩ ⟨0, 0, 10⟩ = false ∧
    (Point.equally_spaced_points geodLine mathToy ⟨0, 0, 0⟩ ⟨0, 0, 10⟩ 3).getLastD ⟨0, 0, 0⟩ =
      ⟨0, 0, 9⟩ ∧
    pointEq ⟨0, 0, 9⟩ ⟨0, 0, 10⟩ = false := by
  refine ⟨?_, ?_, ?_⟩
  · rw [pointEq_false_iff]
    norm_num [DEPTH_TOLERANCE, abs_le]
  · rw [esp_vertical_eval]
    rfl
  · rw [pointEq_false_iff]
    norm_num [DEPTH_TOLERANCE, abs_le]

/-- Counterexample to C10 as stated: the two valid points with longitudes
-180 and 180 (the same physical location on the antimeridian) are not
tolerance-equal, so the early return is not taken, yet the total distance is
zero: the division `horizontal_distance / total_distance` is reached with a
zero denominator (a ZeroDivisionError in the Python source).  `geodSeam`
reflects pyproj's inverse problem on coincident physical locations. -/
theorem esp_division_by_zero_at_seam :
    exceptOk (mkPoint (-180) 0 0) = true ∧
    exceptOk (mkPoint 180 0 0) = true ∧
    espDividesByZero geodSeam mathToy ⟨-180, 0, 0⟩ ⟨180, 0, 0⟩ := by
  refine ⟨by norm_num [mkPoint, exceptOk], by norm_num [mkPoint, exceptOk], ?_, ?_⟩
  · rw [pointEq_false_iff]
    norm_num [LAT_LON_TOLERANCE, abs_le]
  · have hB : Point.horizontal_distance geodSeam ⟨-180, 0, 0⟩ ⟨180, 0, 0⟩ = 0 := by
      norm_num [Point.horizontal_distance, geodSeam]
    unfold Point.distance
    rw [hB]
    exact mathToy_sqrt_eval 0 ((0 : ℚ) - 0) 0 (by norm_num) (by norm_num)

/-- Claim C10 (amended): tolerance inequality alone does not make
`total_distance` positive, because two valid coordinate pairs can denote the
same physical location (longitude -180 versus 180, or two longitudes at a
pole); under the additional assumption that the horizontal geodesic distance
is nonzero or the depths differ — and with `sqrt` behaving as an exact
nonnegative square root on the value it is applied to — the total distance
is strictly positive, the division is safe, and the acos argument
`horizontal_distance / total_distance` lies in [0, 1]. -/
theorem esp_acos_argument_in_unit_interval (G : Geod) (M : RMath)
    (self point : Point)
    (h0 : 0 ≤ Point.horizontal_distance G self point)
    (hsq : M.sqrt (Point.horizontal_distance G self point ^ 2 +
        (point.depth - self.depth) ^ 2) ^ 2 =
      Point.horizontal_distance G self point ^ 2 + (point.depth - self.depth) ^ 2)
    (hsqnn : 0 ≤ M.sqrt (Point.horizontal_distance G self point ^ 2 +
        (point.depth - self.depth) ^ 2))
    (hpos : Point.horizontal_distance G self point ≠ 0 ∨ point.depth ≠ self.depth) :
    0 < Point.distance G M self point ∧
    0 ≤ Point.horizontal_distance G self point / Point.distance G M self point ∧
    Point.horizontal_distance G self point / Point.distance G M self point ≤ 1 ∧
    ¬ espDividesByZero G M self point := by
  have hdist : Point.distance G M self point =
      M.sqrt (Point.horizontal_distance G self point ^ 2 +
        (point.depth - self.depth) ^ 2) := rfl
  have hD : 0 < Point.horizontal_distance G self point ^ 2 +
      (point.depth - self.depth) ^ 2 := by
    rcases hpos with h | h
    · have : 0 < Point.horizontal_distance G self point ^ 2 := by positivity
      nlinarith [sq_nonneg (point.depth - self.depth)]
    · have hv : point.depth - self.depth ≠ 0 := sub_ne_zero.mpr h
      have : 0 < (point.depth - self.depth) ^ 2 := by positivity
      nlinarith [sq_nonneg (Point.horizontal_distance G self point)]
  have hspos : 0 < Point.distance G M self point := by
    rw [hdist]
    rcases eq_or_lt_of_le hsqnn with h | h
    · exfalso
      rw [← h] at hsq
      norm_num at hsq
      linarith
    · exact h
  refine ⟨hspos, div_nonneg h0 hspos.le, ?_, ?_⟩
  · rw [div_le_one hspos, hdist]
    have hle : Point.horizontal_distance G self point ^ 2 ≤
        M.sqrt (Point.horizontal_distance G self point ^ 2 +
          (point.depth - self.depth) ^ 2) ^ 2 := by
      rw [hsq]
      nlinarith [sq_nonneg (point.depth - self.depth)]
    exact (pow_le_pow_iff_left₀ h0 hsqnn two_ne_zero).mp hle
  · rintro ⟨-, hzero⟩
    rw [hzero] at hspos
    exact lt_irrefl 0 hspos

/-- Witness for the amended C10 at a concrete input: two points 3 km apart
horizontally and 4 km apart in depth give total distance 5 and acos argument
3/5 inside [0, 1]. -/
theorem esp_acos_argument_in_unit_interval_witness :
    0 < Point.distance geodLine mathToy ⟨0, 0, 0⟩ ⟨0, 3, 4⟩ ∧
    ¬ espDividesByZero geodLine mathToy ⟨0, 0, 0⟩ ⟨0, 3, 4⟩ := by
  have hh : Point.horizontal_distance geodLine ⟨0, 0, 0⟩ ⟨0, 3, 4⟩ = 3 := by
    norm_num [Point.horizontal_distance, geodLine]
  have h := esp_acos_argument_in_unit_interval geodLine mathToy ⟨0, 0, 0⟩ ⟨0, 3, 4⟩
    (by rw [hh]; norm_num)
    (by rw [hh]; rw [mathToy_sqrt_eval 3 ((4 : ℚ) - 0) 5 (by norm_num) (by norm_num)]; norm_num)
    (by rw [hh]; rw [mathToy_sqrt_eval 3 ((4 : ℚ) - 0) 5 (by norm_num) (by norm_num)]; norm_num)
    (Or.inl (by rw [hh]; norm_num))
  exact ⟨h.1, h.2.2.2⟩

/-- Claim C5: Line construction first cleans adjacent duplicates, then fails
exactly when the cleaned sequence is empty or its 2D lon/lat projection
self-intersects; on success the stored sequence is exactly the cleaned one;
a single-point line always constructs successfully. -/
theorem line_init_validation (proj : ℚ → ℚ → ℚ × ℚ) (points : List Point) (p : Point) :
    (exceptOk (Line.init proj points) = true ↔
      (clean_points points ≠ [] ∧
       line_intersects_itself proj ((clean_points points).map Point.longitude)
         ((clean_points points).map Point.latitude) false = false)) ∧
    (∀ l, Line.init proj points = Except.ok l → l.points = clean_points points) ∧
    exceptOk (Line.init proj [p]) = true := by
  refine ⟨?_, ?_, ?_⟩
  · unfold Line.init
    dsimp only
    split_ifs with h1 h2
    · simp only [exceptOk, Bool.false_eq_true, false_iff]
      rw [Nat.lt_one_iff, List.length_eq_zero] at h1
      tauto
    · simp only [exceptOk, Bool.false_eq_true, false_iff]
      rintro ⟨-, hf⟩
      rw [h2] at hf
      cases hf
    · simp only [exceptOk, true_iff]
      constructor
      · intro hnil
        rw [hnil] at h1
        exact h1 (by norm_num)
      · exact Bool.not_eq_true _ ▸ Bool.of_not_eq_true h2
  · unfold Line.init
    dsimp only
    split_ifs with h1 h2 <;> intro l hl
    · exact absurd hl (by simp)
    · exact absurd hl (by simp)
    · cases hl
      rfl
  · simp [Line.init, clean_points, cleanAux, line_intersects_itself, chainSegments,
      anyNonAdjacentIntersect, exceptOk]

/-- Witness for C5: a concrete single-point line constructs successfully. -/
theorem line_init_validation_witness :
    exceptOk (Line.init projIdent [⟨1, 2, 0⟩]) = true :=
  (line_init_validation projIdent [] ⟨1, 2, 0⟩).2.2

/-- Claim C6: Polygon construction cleans adjacent duplicates, then fails
exactly when fewer than 3 unique vertices remain or the closed perimeter
self-intersects in planar projection; on success it stores exactly the
cleaned sequence's longitude and latitude arrays and its vertex count. -/
theorem polygon_init_validation (proj : ℚ → ℚ → ℚ × ℚ) (points : List Point) :
    (exceptOk (Polygon.init proj points) = true ↔
      (3 ≤ (clean_points points).length ∧
       line_intersects_itself proj ((clean_points points).map Point.longitude)
         ((clean_points points).map Point.latitude) true = false)) ∧
    (∀ P, Polygon.init proj points = Except.ok P →
      P.lons = (clean_points points).map Point.longitude ∧
      P.lats = (clean_points points).map Point.latitude ∧
      P.num_points = (clean_points points).length) := by
  constructor
  · unfold Polygon.init
    dsimp only
    by_cases h1 : 3 ≤ (clean_points points).length
    · rw [if_neg (not_not_intro h1)]
      by_cases h2 : line_intersects_itself proj
          ((clean_points points).map Point.longitude)
          ((clean_points points).map Point.latitude) true = true
      · rw [if_pos h2]
        simp only [exceptOk, Bool.false_eq_true, false_iff]
        rintro ⟨-, hf⟩
        rw [h2] at hf
        cases hf
      · rw [if_neg h2]
        simp only [exceptOk, true_iff]
        exact ⟨h1, Bool.of_not_eq_true h2⟩
    · rw [if_pos h1]
      simp only [exceptOk, Bool.false_eq_true, false_iff]
      rintro ⟨h, -⟩
      exact h1 h
  · unfold Polygon.init
    dsimp only
    intro P hP
    by_cases h1 : 3 ≤ (clean_points points).length
    · rw [if_neg (not_not_intro h1)] at hP
      by_cases h2 : line_intersects_itself proj
          ((clean_points points).map Point.longitude)
          ((clean_points points).map Point.latitude) true = true
      · rw [if_pos h2] at hP
        exact absurd hP (by simp)
      · rw [if_neg h2] at hP
        cases hP
        exact ⟨rfl, rfl, rfl⟩
    · rw [if_pos h1] at hP
      exact absurd hP (by simp)

/-- Witness for C6: a concrete triangle constructs successfully and stores
the cleaned data. -/
theorem polygon_init_validation_witness :
    Polygon.init projIdent [⟨0, 0, 0⟩, ⟨1, 0, 0⟩, ⟨0, 1, 0⟩] =
      Except.ok ⟨[0, 1, 0], [0, 0, 1], 3⟩ := by
  have hAB : pointEq ⟨0, 0, 0⟩ ⟨1, 0, 0⟩ = false := by
    rw [pointEq_false_iff]
    norm_num [LAT_LON_TOLERANCE, abs_le]
  have hBC : pointEq ⟨1, 0, 0⟩ ⟨0, 1, 0⟩ = false := by
    rw [pointEq_false_iff]
    norm_num [LAT_LON_TOLERANCE, abs_le]
  have hclean : clean_points [⟨0, 0, 0⟩, ⟨1, 0, 0⟩, ⟨0, 1, 0⟩] =
      [⟨0, 0, 0⟩, ⟨1, 0, 0⟩, ⟨0, 1, 0⟩] := by
    simp [clean_points, cleanAux, hAB, hBC]
  have hno : line_intersects_itself projIdent
      ((clean_points [⟨0, 0, 0⟩, ⟨1, 0, 0⟩, ⟨0, 1, 0⟩]).map Point.longitude)
      ((clean_points [⟨0, 0, 0⟩, ⟨1, 0, 0⟩, ⟨0, 1, 0⟩]).map Point.latitude) true = false := by
    rw [hclean]
    simp [line_intersects_itself, chainSegments, anyNonAdjacentIntersect, projIdent,
      List.range_succ]
  have h := polygon_init_validation projIdent [⟨0, 0, 0⟩, ⟨1, 0, 0⟩, ⟨0, 1, 0⟩]
  have hok : exceptOk (Polygon.init projIdent [⟨0, 0, 0⟩, ⟨1, 0, 0⟩, ⟨0, 1, 0⟩]) = true :=
    h.1.mpr ⟨by rw [hclean]; norm_num, hno⟩
  obtain ⟨P, hP⟩ : ∃ P, Polygon.init projIdent [⟨0, 0, 0⟩, ⟨1, 0, 0⟩, ⟨0, 1, 0⟩] =
      Except.ok P := by
    revert hok
    cases Polygon.init projIdent [⟨0, 0, 0⟩, ⟨1, 0, 0⟩, ⟨0, 1, 0⟩] with
    | ok P => exact fun _ => ⟨P, rfl⟩
    | error e => intro hok; cases hok
  obtain ⟨hl, hb, hn⟩ := h.2 P hP
  rw [hP]
  have : P = ⟨[0, 1, 0], [0, 0, 1], 3⟩ := by
    cases P
    simp only [Polygon.mk.injEq]
    rw [hclean] at hl hb hn
    refine ⟨?_, ?_, ?_⟩ <;> simp_all
  rw [this]

theorem clampLon_range (x : ℚ) (h1 : -540 < x) (h2 : x ≤ 540) :
    -180 < clampLon x ∧ clampLon x ≤ 180 := by
  unfold clampLon
  split_ifs with ha hb
  · constructor <;> linarith
  · constructor <;> linarith
  · push_neg at ha hb
    constructor <;> linarith

theorem edgeInserts_range (G : Geod) (P : Polygon) (i : ℕ)
    (hnpts : ∀ a b c e k q, q ∈ G.npts a b c e k → -540 < q.1 ∧ q.1 ≤ 540) :
    ∀ q ∈ edgeInserts G P i, -180 < q.1 ∧ q.1 ≤ 180 := by
  intro q hq
  unfold edgeInserts at hq
  dsimp only at hq
  split_ifs at hq with hn
  · obtain ⟨q0, hq0, rfl⟩ := List.mem_map.mp hq
    have hr := hnpts _ _ _ _ _ _ hq0
    exact clampLon_range q0.1 hr.1 hr.2
  · cases hq

theorem resampledPoints_mem (G : Geod) (P : Polygon) (q : ℚ × ℚ)
    (hq : q ∈ Polygon.resampledPoints G P) :
    (∃ j : ℕ, q.1 = P.lons.getD j 0) ∨ (∃ i : ℕ, q ∈ edgeInserts G P i) := by
  unfold Polygon.resampledPoints at hq
  rcases List.mem_cons.mp hq with rfl | hq'
  · exact Or.inl ⟨0, rfl⟩
  · obtain ⟨l, hl, hql⟩ := List.mem_flatten.mp hq'
    obtain ⟨i, _, rfl⟩ := List.mem_map.mp hl
    unfold resampleEdge at hql
    rcases List.mem_append.mp hql with hin | hend
    · exact Or.inr ⟨i, hin⟩
    · rw [List.mem_singleton] at hend
      subst hend
      exact Or.inl ⟨(i + 1) % P.num_points, rfl⟩

theorem lons_getD_range (P : Polygon) (hvert : ∀ x ∈ P.lons, -180 ≤ x ∧ x ≤ 180) :
    ∀ j : ℕ, -180 ≤ P.lons.getD j 0 ∧ P.lons.getD j 0 ≤ 180 := by
  intro j
  by_cases hj : j < P.lons.length
  · rw [List.getD_eq_getElem P.lons 0 hj]
    exact hvert _ (List.getElem_mem hj)
  · rw [List.getD_eq_default P.lons 0 (le_of_not_lt hj)]
    norm_num

theorem edgeInserts_nil_of_small (G : Geod) (P : Polygon) (i : ℕ)
    (h : |get_longitudinal_extent (P.lons.getD i 0)
        (P.lons.getD ((i + 1) % P.num_points) 0)| < 2) :
    edgeInserts G P i = [] := by
  unfold edgeInserts
  dsimp only
  rw [if_neg]
  intro hpos
  have hdiv : |get_longitudinal_extent (P.lons.getD i 0)
      (P.lons.getD ((i + 1) % P.num_points) 0)| / LONGITUDINAL_DISCRETIZATION =
      |get_longitudinal_extent (P.lons.getD i 0)
        (P.lons.getD ((i + 1) % P.num_points) 0)| := by
    unfold LONGITUDINAL_DISCRETIZATION
    rw [div_one]
  rw [hdiv] at hpos
  have hfl : ⌊|get_longitudinal_extent (P.lons.getD i 0)
      (P.lons.getD ((i + 1) % P.num_points) 0)|⌋ < 2 := Int.floor_lt.mpr (by exact_mod_cast h)
  omega

/-- Counterexample to C7 as stated: a valid polygon with a vertex at
longitude exactly -180 (accepted by Point and Polygon construction)
reproduces that vertex verbatim in the resampled coordinates, so not every
returned longitude lies in (-180, 180]: vertex longitudes are passed through
unclamped; only npts-inserted intermediate points are clamped. -/
theorem polygon_resampled_lon_at_seam :
    Polygon.init projIdent seamVertexPoints = Except.ok seamPoly ∧
    (Polygon.resampledPoints geodSeam seamPoly).map Prod.fst =
      [-180, -179, -179, -180] ∧
    ¬ (-180 < (-180 : ℚ)) := by
  refine ⟨?_, ?_, by norm_num⟩
  · have h01 : pointEq ⟨-180, 0, 0⟩ ⟨-179, 0, 0⟩ = false := by
      rw [pointEq_false_iff]
      norm_num [LAT_LON_TOLERANCE, abs_le]
    have h12 : pointEq ⟨-179, 0, 0⟩ ⟨-179, 1, 0⟩ = false := by
      rw [pointEq_false_iff]
      norm_num [LAT_LON_TOLERANCE, abs_le]
    have hclean : clean_points seamVertexPoints = seamVertexPoints := by
      simp [seamVertexPoints, clean_points, cleanAux, h01, h12]
    unfold Polygon.init
    dsimp only
    rw [hclean]
    rw [if_neg (by norm_num [seamVertexPoints])]
    have hno : line_intersects_itself projIdent
        (seamVertexPoints.map Point.longitude)
        (seamVertexPoints.map Point.latitude) true = false := by
      norm_num [seamVertexPoints, line_intersects_itself, chainSegments,
        anyNonAdjacentIntersect, projIdent, List.range_succ]
    simp only [hno, Bool.false_eq_true, if_false]
    rfl
  · have e0 : resampleEdge geodSeam seamPoly 0 = [(-179, 0)] := by
      unfold resampleEdge
      rw [edgeInserts_nil_of_small geodSeam seamPoly 0 (by
        show |get_longitudinal_extent (-180 : ℚ) (-179)| < 2
        norm_num [get_longitudinal_extent])]
      rfl
    have e1 : resampleEdge geodSeam seamPoly 1 = [(-179, 1)] := by
      unfold resampleEdge
      rw [edgeInserts_nil_of_small geodSeam seamPoly 1 (by
        show |get_longitudinal_extent (-179 : ℚ) (-179)| < 2
        norm_num [get_longitudinal_extent])]
      rfl
    have e2 : resampleEdge geodSeam seamPoly 2 = [(-180, 0)] := by
      unfold resampleEdge
      rw [edgeInserts_nil_of_small geodSeam seamPoly 2 (by
        show |get_longitudinal_extent (-179 : ℚ) (-180)| < 2
        norm_num [get_longitudinal_extent])]
      rfl
    unfold Polygon.resampledPoints
    rw [show List.range seamPoly.num_points = [0, 1, 2] from rfl]
    simp only [List.map_cons, List.map_nil]
    rw [e0, e1, e2]
    rfl

/-- Claim C7 (amended): for every valid polygon and a GEOD.npts that returns
the requested number of points with longitudes only slightly out of range:
an edge whose antimeridian-aware absolute longitudinal extent exceeds the
1-degree unit receives exactly floor(extent/unit) - 1 inserted intermediate
points; each edge contribution ends with the edge's endpoint, which is
always appended; the result starts at the first vertex and ends by
repeating it (closed ring); npts-inserted longitudes are clamped into
(-180, 180]; every returned longitude lies in [-180, 180] (a vertex at
exactly -180 is passed through, so the open lower bound holds only for the
inserted points); and the antimeridian polygon of the spec constructs
successfully and all its resampled longitudes lie in (-180, 180]. -/
theorem polygon_resampled_coordinates (G : Geod) (P : Polygon)
    (hlen : ∀ a b c e k, (G.npts a b c e k).length = k)
    (hnpts : ∀ a b c e k q, q ∈ G.npts a b c e k → -540 < q.1 ∧ q.1 ≤ 540)
    (hvert : ∀ x ∈ P.lons, -180 ≤ x ∧ x ≤ 180) :
    (∀ i : ℕ,
      1 < |get_longitudinal_extent (P.lons.getD i 0)
          (P.lons.getD ((i + 1) % P.num_points) 0)| →
      ((edgeInserts G P i).length : ℤ) =
        ⌊|get_longitudinal_extent (P.lons.getD i 0)
            (P.lons.getD ((i + 1) % P.num_points) 0)| /
          LONGITUDINAL_DISCRETIZATION⌋ - 1) ∧
    (∀ i : ℕ, resampleEdge G P i = edgeInserts G P i ++
      [(P.lons.getD ((i + 1) % P.num_points) 0,
        P.lats.getD ((i + 1) % P.num_points) 0)]) ∧
    (1 ≤ P.num_points →
      (Polygon.resampledPoints G P).getLast? =
        some (P.lons.getD 0 0, P.lats.getD 0 0)) ∧
    ((Polygon.resampledPoints G P).head? =
      some (P.lons.getD 0 0, P.lats.getD 0 0)) ∧
    (∀ i : ℕ, ∀ q ∈ edgeInserts G P i, -180 < q.1 ∧ q.1 ≤ 180) ∧
    (∀ q ∈ Polygon.resampledPoints G P, -180 ≤ q.1 ∧ q.1 ≤ 180) ∧
    Polygon.init projShift amPoints = Except.ok amPoly ∧
    (∀ q ∈ Polygon.resampledPoints G amPoly, -180 < q.1 ∧ q.1 ≤ 180) := by
  have hcount : ∀ i : ℕ,
      1 < |get_longitudinal_extent (P.lons.getD i 0)
          (P.lons.getD ((i + 1) % P.num_points) 0)| →
      ((edgeInserts G P i).length : ℤ) =
        ⌊|get_longitudinal_extent (P.lons.getD i 0)
            (P.lons.getD ((i + 1) % P.num_points) 0)| /
          LONGITUDINAL_DISCRETIZATION⌋ - 1 := by
    intro i hx
    have hdiv : |get_longitudinal_extent (P.lons.getD i 0)
        (P.lons.getD ((i + 1) % P.num_points) 0)| / LONGITUDINAL_DISCRETIZATION =
        |get_longitudinal_extent (P.lons.getD i 0)
          (P.lons.getD ((i + 1) % P.num_points) 0)| := by
      unfold LONGITUDINAL_DISCRETIZATION
      rw [div_one]
    unfold edgeInserts
    dsimp only
    by_cases hn : (0 : ℤ) < ⌊|get_longitudinal_extent (P.lons.getD i 0)
        (P.lons.getD ((i + 1) % P.num_points) 0)| / LONGITUDINAL_DISCRETIZATION⌋ - 1
    · rw [if_pos hn, List.length_map, hlen, Int.toNat_of_nonneg (by omega)]
    · rw [if_neg hn]
      have h1 : (1 : ℤ) ≤ ⌊|get_longitudinal_extent (P.lons.getD i 0)
          (P.lons.getD ((i + 1) % P.num_points) 0)| / LONGITUDINAL_DISCRETIZATION⌋ := by
        rw [hdiv]
        exact Int.le_floor.mpr (by exact_mod_cast hx.le)
      simp only [List.length_nil]
      omega
  have hclosure : 1 ≤ P.num_points →
      (Polygon.resampledPoints G P).getLast? =
        some (P.lons.getD 0 0, P.lats.getD 0 0) := by
    intro hnp
    obtain ⟨m, hm⟩ : ∃ m, P.num_points = m + 1 := ⟨P.num_points - 1, by omega⟩
    unfold Polygon.resampledPoints
    rw [hm, List.range_succ, List.map_append, List.flatten_append]
    simp only [List.map_cons, List.map_nil, List.flatten_cons, List.flatten_nil,
      List.append_nil]
    have hre : resampleEdge G P m =
        edgeInserts G P m ++ [(P.lons.getD 0 0, P.lats.getD 0 0)] := by
      unfold resampleEdge
      rw [hm, Nat.mod_self]
    rw [hre]
    have hgen : ∀ (x : ℚ × ℚ) (A I : List (ℚ × ℚ)) (e : ℚ × ℚ),
        (x :: (A ++ (I ++ [e]))).getLast? = some e := by
      intro x A I e
      rw [show x :: (A ++ (I ++ [e])) = (x :: (A ++ I)) ++ [e] by simp]
      exact List.getLast?_concat _
    exact hgen _ _ _ _
  have hweak : ∀ q ∈ Polygon.resampledPoints G P, -180 ≤ q.1 ∧ q.1 ≤ 180 := by
    intro q hq
    rcases resampledPoints_mem G P q hq with ⟨j, hj⟩ | ⟨i, hi⟩
    · rw [hj]
      exact lons_getD_range P hvert j
    · have h := edgeInserts_range G P i hnpts q hi
      exact ⟨le_of_lt h.1, h.2⟩
  have hinit : Polygon.init projShift amPoints = Except.ok amPoly := by
    have c0 : pointEq ⟨177, 40, 0⟩ ⟨179, 40, 0⟩ = false := by
      rw [pointEq_false_iff]
      norm_num [LAT_LON_TOLERANCE, abs_le]
    have c1 : pointEq ⟨179, 40, 0⟩ ⟨-179, 40, 0⟩ = false := by
      rw [pointEq_false_iff]
      norm_num [LAT_LON_TOLERANCE, abs_le]
    have c2 : pointEq ⟨-179, 40, 0⟩ ⟨-177, 40, 0⟩ = false := by
      rw [pointEq_false_iff]
      norm_num [LAT_LON_TOLERANCE, abs_le]
    have c3 : pointEq ⟨-177, 40, 0⟩ ⟨-177, 43, 0⟩ = false := by
      rw [pointEq_false_iff]
      norm_num [LAT_LON_TOLERANCE, abs_le]
    have c4 : pointEq ⟨-177, 43, 0⟩ ⟨-179, 43, 0⟩ = false := by
      rw [pointEq_false_iff]
      norm_num [LAT_LON_TOLERANCE, abs_le]
    have c5 : pointEq ⟨-179, 43, 0⟩ ⟨179, 43, 0⟩ = false := by
      rw [pointEq_false_iff]
      norm_num [LAT_LON_TOLERANCE, abs_le]
    have c6 : pointEq ⟨179, 43, 0⟩ ⟨177, 43, 0⟩ = false := by
      rw [pointEq_false_iff]
      norm_num [LAT_LON_TOLERANCE, abs_le]
    have hclean : clean_points amPoints = amPoints := by
      simp [amPoints, clean_points, cleanAux, c0, c1, c2, c3, c4, c5, c6]
    unfold Polygon.init
    dsimp only
    rw [hclean]
    rw [if_neg (by norm_num [amPoints])]
    have hno : line_intersects_itself projShift
        (amPoints.map Point.longitude) (amPoints.map Point.latitude) true = false := by
      norm_num [amPoints, line_intersects_itself, chainSegments,
        anyNonAdjacentIntersect, segIntersect, orient, onSegment, projShift,
        List.range_succ]
    simp only [hno, Bool.false_eq_true, if_false]
    rfl
  have hstrict : ∀ q ∈ Polygon.resampledPoints G amPoly, -180 < q.1 ∧ q.1 ≤ 180 := by
    intro q hq
    rcases resampledPoints_mem G amPoly q hq with ⟨j, hj⟩ | ⟨i, hi⟩
    · rw [hj]
      by_cases hjl : j < 8
      · interval_cases j <;> norm_num [amPoly, List.getD_cons_zero, List.getD_cons_succ]
      · rw [List.getD_eq_default _ _ (by
          show amPoly.lons.length ≤ j
          norm_num [amPoly]
          omega)]
        norm_num
    · exact edgeInserts_range G amPoly i hnpts q hi
  exact ⟨hcount, fun i => rfl, hclosure, rfl, fun i => edgeInserts_range G P i hnpts,
    hweak, hinit, hstrict⟩

/-- Witness for C7 at concrete inputs: the toy geodesy satisfies the npts
hypotheses, and with it the amended theorem yields the head of the
antimeridian polygon's resampled ring and its successful construction. -/
theorem polygon_resampled_coordinates_witness :
    (Polygon.resampledPoints geodLine amPoly).head? = some (177, 40) ∧
    Polygon.init projShift amPoints = Except.ok amPoly := by
  have h := polygon_resampled_coordinates geodLine amPoly
    (fun a b c e k => List.length_replicate k (0, 0))
    (fun a b c e k q hq => by
      rw [List.eq_of_mem_replicate hq]
      norm_num)
    (by
      intro x hx
      simp only [amPoly, List.mem_cons, List.not_mem_nil, or_false] at hx
      rcases hx with rfl | rfl | rfl | rfl | rfl | rfl | rfl | rfl <;> norm_num)
  exact ⟨h.2.2.2.1, h.2.2.2.2.2.2.1⟩

end NheGeo
